import Mathlib

/-!
Verification of the streaming inference dispatch layer.

Shallow embedding of the dispatch layer of the `llm` package:

* `llm/inference/multiproc.py` — `MultiprocessEngine`: a process-pool dispatcher with a
  bounded availability queue of worker handles, duplex pipes to worker processes, and a
  sentinel-terminated per-request stream protocol.
* `llm/qa/fastchatter.py` — `QueuedEngine`: the thread-pool variant with a shared request
  queue and a private output queue per request.
* `llm/inference/vllm_client.py` — `VLLMClient`: the remote HTTP streaming client with
  echo-prompt trimming and stop-sequence suppression.

Python strings are embedded as `List Char`; Python `None` used as the end-of-stream
sentinel is embedded as `Option`; exceptions are embedded as explicit error values.
-/

/-- Python strings, embedded as lists of characters. -/
abbrev Str := List Char

/-- Python exceptions relevant to the embedded code paths. -/
inductive PyError
  /-- TypeError, e.g. from iterating `None` in `MutableMapping.update(None)`. -/
  | typeError
  /-- KeyError, e.g. from `data["text"]` when the parsed JSON lacks a `"text"` field. -/
  | keyError
deriving DecidableEq, Repr

namespace VLLMClient

/-- State of a constructed `VLLMClient`: the session's header mapping and the base URL
(`llm/inference/vllm_client.py`, `__init__`). -/
structure ClientState where
  headers : List (Str × Str)
  base_url : Str
deriving DecidableEq, Repr

/-- The initial headers of a fresh `requests.Session()`. Their concrete entries are
irrelevant to every property proved below, so they are embedded as the empty mapping. -/
def sessionDefaultHeaders : List (Str × Str) := []

/-- `session.headers.update(headers)`: `MutableMapping.update` iterates its argument, so
`update(None)` raises `TypeError` (`NoneType` is not iterable); with a mapping argument it
merges the entries (embedded as appending, key-collision behaviour being irrelevant to
the claims). -/
def headersUpdate (base : List (Str × Str)) :
    Option (List (Str × Str)) → Except PyError (List (Str × Str))
  | none => .error .typeError
  | some hs => .ok (base ++ hs)

/-- `VLLMClient.__init__(base_url, headers=None)`: builds a session and unconditionally
runs `self.session.headers.update(headers)` (`llm/inference/vllm_client.py` lines 14-17). -/
def init (base_url : Str) (headers : Option (List (Str × Str))) : Except PyError ClientState :=
  match headersUpdate sessionDefaultHeaders headers with
  | .error e => .error e
  | .ok hs => .ok ⟨hs, base_url⟩

/-- `VLLMClient._trim_answer(prompt, answer, echo_prompt)`: when echo was not requested
and the cumulative answer starts with the prompt, strip that leading prompt; otherwise
return the answer unchanged (`llm/inference/vllm_client.py` lines 71-75). -/
def trim_answer (prompt answer : Str) (echo_prompt : Bool) : Str :=
  if !echo_prompt then
    if prompt <+: answer then answer.drop prompt.length else answer
  else answer

/-- Modelled from the spec: `check_stop_str` lives in `llm/inference/transformer.py`,
which is not among the available sources. Per the spec, the client-side test is whether
the answer's "trailing content matches a non-empty proper prefix of any configured stop
sequence"; only this partial-stop component is consumed by `VLLMClient._request`. -/
def partial_stop (answer : Str) (stops : List Str) : Bool :=
  stops.any fun s =>
    (List.range s.length).any fun k => decide (0 < k) && decide (s.take k <:+ answer)

/-- One line of the chunked streaming response body, after splitting on the NUL
delimiter: either an empty line (skipped by `if line:`) or a parsed JSON frame whose
extracted value is `data["text"][0]` when the `"text"` field is present. -/
inductive RawLine
  | empty
  | frame (text : Option Str)
deriving DecidableEq, Repr

/-- A response body all of whose lines are non-empty well-formed frames with the given
cumulative texts. -/
def wellFormedLines (frames : List Str) : List RawLine :=
  frames.map fun t => RawLine.frame (some t)

/-- The streaming loop of `VLLMClient._request` (`llm/inference/vllm_client.py` lines
56-66): per non-empty line, parse it, read `data["text"][0]` (raising `KeyError` when the
`"text"` field is missing, which aborts the stream), trim the echoed prompt, and yield
the visible answer unless a partially completed stop string is detected. Returns the
yielded increments together with the error that aborted the stream, if any. -/
def request (prompt : Str) (echo_prompt : Bool) (stops : List Str) :
    List RawLine → List Str × Option PyError
  | [] => ([], none)
  | RawLine.empty :: rest => request prompt echo_prompt stops rest
  | RawLine.frame none :: _ => ([], some PyError.keyError)
  | RawLine.frame (some t) :: rest =>
    let answer := trim_answer prompt t echo_prompt
    let r := request prompt echo_prompt stops rest
    if partial_stop answer stops then r else (answer :: r.1, r.2)

/-- Modelled from the spec: the remote endpoint is external to the sources; the stop
sequences are serialized into the wire request and the endpoint ends the stream at the
first full stop-sequence match. A text has a full stop match when some non-empty
configured stop sequence occurs in it. -/
def hasFullStop (stops : List Str) (p : Str) : Bool :=
  stops.any fun s => !s.isEmpty && decide (s <:+: p)

/-- Modelled from the spec: the cumulative frames streamed by the remote endpoint for a
generation `gen` — the cumulative prefixes of `gen`, the stream ending as soon as a
configured stop sequence fully matches. -/
def serverFrames (stops : List Str) (gen : Str) : List Str :=
  (((List.range (gen.length + 1)).map fun n => gen.take n).takeWhile
    fun p => !hasFullStop stops p)

/-- The visible answers of a frame sequence: each frame's cumulative text after echo
trimming, in frame order. -/
def visibleAnswers (prompt : Str) (echo_prompt : Bool) (frames : List Str) : List Str :=
  frames.map fun t => trim_answer prompt t echo_prompt

/-- The `stream=False` branch of `VLLMClient._request` (`llm/inference/vllm_client.py`
lines 67-70): a single JSON response whose `data["text"][0]` is trimmed and yielded. -/
def request_no_stream (prompt : Str) (echo_prompt : Bool) (responseText : Str) : List Str :=
  [trim_answer prompt responseText echo_prompt]

/-- The drain loop of `VLLMClient.generate` (`llm/inference/vllm_client.py` lines 29-40):
`text = ""` then `for t in self._request(...): text = t`, returning the final value. -/
def generate_drain (yields : List Str) : Str :=
  yields.foldl (fun _ t => t) []

/-- `VLLMClient.generate(prompt, ...)`: drain the `stream=False` request and keep the
last increment. -/
def generate (prompt : Str) (echo_prompt : Bool) (responseText : Str) : Str :=
  generate_drain (request_no_stream prompt echo_prompt responseText)

end VLLMClient

/-- State of a `MultiprocessEngine` (`llm/inference/multiproc.py`): `queue` is the
availability pool of worker handles in FIFO order (handles are embedded as numbers),
`checkedOut` are the handles currently acquired by in-flight `generate_stream` calls, and
`closed` is the shutdown flag set by `close()`. -/
structure MultiprocessEngine where
  queue : List Nat
  checkedOut : List Nat
  closed : Bool
deriving DecidableEq, Repr

namespace MultiprocessEngine

/-- `MultiprocessEngine.__init__(workers)` (`llm/inference/multiproc.py` lines 20-25):
the availability queue is created with capacity `len(workers)` and seeded by putting
every worker handle into it; `closed` starts false. -/
def init (workers : List Nat) : MultiprocessEngine :=
  ⟨workers, [], false⟩

/-- The blocking `self.queue.get()` at the head of `generate_stream`: returns the first
available handle and records it as checked out, or blocks (no result) when the pool is
empty. -/
def acquireWorker : MultiprocessEngine → Option (Nat × MultiprocessEngine)
  | ⟨[], _, _⟩ => none
  | ⟨w :: rest, out, c⟩ => some (w, ⟨rest, out ++ [w], c⟩)

/-- The `finally:` block of `generate_stream` (`llm/inference/multiproc.py` lines 89-92):
the checked-out handle is put back into the queue unless the engine has been closed, in
which case it is discarded. -/
def releaseWorker (s : MultiprocessEngine) (w : Nat) : MultiprocessEngine :=
  ⟨if s.closed then s.queue else s.queue ++ [w], s.checkedOut.erase w, s.closed⟩

/-- `MultiprocessEngine.close()` (`llm/inference/multiproc.py` lines 94-97): sets the
closed flag (and closes every worker pipe). -/
def closeEngine (s : MultiprocessEngine) : MultiprocessEngine :=
  ⟨s.queue, s.checkedOut, true⟩

/-- The pool-affecting transitions of the engine, as executed by concurrent
`generate_stream` callers and by `close()`: taking the next available handle off the
queue, releasing a checked-out handle through the `finally:` block, and shutting down. -/
inductive EngineStep : MultiprocessEngine → MultiprocessEngine → Prop
  | acquire {w : Nat} {rest out : List Nat} {c : Bool} :
      EngineStep ⟨w :: rest, out, c⟩ ⟨rest, out ++ [w], c⟩
  | release {s : MultiprocessEngine} (w : Nat) (h : w ∈ s.checkedOut) :
      EngineStep s (releaseWorker s w)
  | close {s : MultiprocessEngine} : EngineStep s (closeEngine s)

/-- States reachable from a given initial state by engine transitions. -/
inductive Reachable (start : MultiprocessEngine) : MultiprocessEngine → Prop
  | refl : Reachable start start
  | step {s s' : MultiprocessEngine} : Reachable start s → EngineStep s s' →
      Reachable start s'

/-- How a call to `generate_stream` begins in a given engine state: `self.queue.get()`
blocks when the pool is empty; otherwise the request is sent over the acquired worker's
pipe, which raises at once when the engine was closed (`close()` closed both pipe ends),
and otherwise the call proceeds to stream from that worker. -/
inductive CallOutcome
  | blocksOnAcquire
  | raisesOnClosedChannel
  | streamsFromWorker (w : Nat)
deriving DecidableEq, Repr

/-- The observable start of one `generate_stream` call in state `s`. -/
def generate_stream_call (s : MultiprocessEngine) : CallOutcome :=
  match acquireWorker s with
  | none => CallOutcome.blocksOnAcquire
  | some (w, _) =>
    if s.closed then CallOutcome.raisesOnClosedChannel else CallOutcome.streamsFromWorker w

/-- The events of one `generate_stream` execution that matter for pool bookkeeping. -/
inductive Eff
  | sendReq
  | yielded (t : Str)
  | taskDone
  | putBack
deriving DecidableEq, Repr

/-- The way the caller's consumption of the generator ends: the stream is drained to the
sentinel, or the caller breaks out after `k` increments, or an exception is raised after
`k` increments. -/
inductive ExitPath
  | completed
  | brokeEarly (k : Nat)
  | raisedMidStream (k : Nat)
deriving DecidableEq, Repr

/-- The effects of the `try:` block of `generate_stream` (`llm/inference/multiproc.py`
lines 77-88) under each exit path: the request is sent, the worker's increments are
yielded until the sentinel (`task_done` being reached only on normal completion), and an
early break or an exception cuts the body off after the increments consumed so far. -/
def tryBodyEffects (texts : List Str) : ExitPath → List Eff
  | ExitPath.completed => Eff.sendReq :: texts.map Eff.yielded ++ [Eff.taskDone]
  | ExitPath.brokeEarly k => Eff.sendReq :: (texts.take k).map Eff.yielded
  | ExitPath.raisedMidStream k => Eff.sendReq :: (texts.take k).map Eff.yielded

/-- One full `generate_stream` execution: Python runs the `finally:` block exactly once
on every exit from the `try:` block — normal exhaustion, `GeneratorExit` on early
abandonment, or an exception propagating out — and that block puts the handle back iff
the engine is not closed (`llm/inference/multiproc.py` lines 89-92). -/
def generate_stream_effects (texts : List Str) (e : ExitPath) (closedAtExit : Bool) :
    List Eff :=
  tryBodyEffects texts e ++ (if closedAtExit then [] else [Eff.putBack])

/-- The per-request sends of `_transformers_worker` (`llm/inference/multiproc.py` lines
61-67): every increment of the underlying engine's stream in order, then the `None`
end-of-stream sentinel. -/
def workerResponses (texts : List Str) : List (Option Str) :=
  texts.map some ++ [none]

/-- The values read off the pipe by `generate_stream`'s loop, up to and including the
first sentinel. -/
def observedValues : List (Option Str) → List (Option Str)
  | [] => []
  | none :: _ => [none]
  | some t :: rest => some t :: observedValues rest

/-- The values yielded by `generate_stream`'s loop: the non-sentinel values before the
first sentinel (`llm/inference/multiproc.py` lines 79-86). -/
def drainStream : List (Option Str) → List Str
  | [] => []
  | none :: _ => []
  | some t :: rest => t :: drainStream rest

end MultiprocessEngine

namespace QueuedEngine

/-- The per-request puts of a `QueuedEngine` watcher thread (`llm/qa/fastchatter.py`
lines 76-88): every increment of the wrapped engine's stream in order onto the request's
private output queue, then the `None` end-of-stream sentinel. -/
def watcherOutputs (texts : List Str) : List (Option Str) :=
  texts.map some ++ [none]

/-- The values yielded by `QueuedEngine.generate_stream`'s read loop: non-sentinel values
from the private output queue until the first sentinel (`llm/qa/fastchatter.py` lines
90-104). -/
def drainOutputs : List (Option Str) → List Str
  | [] => []
  | none :: _ => []
  | some t :: rest => t :: drainOutputs rest

end QueuedEngine

/-! ## Helper lemmas -/

namespace MultiprocessEngine

theorem acquireWorker_cons (w : Nat) (rest out : List Nat) (c : Bool) :
    acquireWorker ⟨w :: rest, out, c⟩ = some (w, ⟨rest, out ++ [w], c⟩) := rfl

theorem acquireWorker_nil (out : List Nat) (c : Bool) :
    acquireWorker ⟨[], out, c⟩ = none := rfl

theorem acquireWorker_eq_none_iff (s : MultiprocessEngine) :
    acquireWorker s = none ↔ s.queue = [] := by
  obtain ⟨q, o, c⟩ := s
  cases q <;> simp [acquireWorker]

theorem count_putBack_map_yielded (texts : List Str) :
    (texts.map Eff.yielded).count Eff.putBack = 0 := by
  induction texts with
  | nil => rfl
  | cons t ts ih => simp [List.count_cons, ih]

theorem count_putBack_take_map :
    ∀ (texts : List Str) (k : Nat),
      ((texts.map Eff.yielded).take k).count Eff.putBack = 0
  | _, 0 => rfl
  | [], _ + 1 => rfl
  | _ :: ts, k + 1 => by simp [List.count_cons, count_putBack_take_map ts k]

theorem drainStream_map_some_sentinel (l : List Str) (rest : List (Option Str)) :
    drainStream (l.map some ++ none :: rest) = l := by
  induction l with
  | nil => rfl
  | cons t ts ih => simp [drainStream, ih]

theorem observedValues_map_some_sentinel (l : List Str) (rest : List (Option Str)) :
    observedValues (l.map some ++ none :: rest) = l.map some ++ [none] := by
  induction l with
  | nil => rfl
  | cons t ts ih => simp [observedValues, ih]

theorem count_none_map_some (l : List Str) :
    ((l.map some : List (Option Str)).count none) = 0 := by
  induction l with
  | nil => rfl
  | cons t ts ih => simp [List.count_cons, ih]

/-- One engine transition preserves the pool bookkeeping bounds: handles in circulation
(in the queue plus checked out) never exceed the construction count `N`, and equal `N`
exactly as long as the engine has not been closed. -/
theorem circulation_step {s s' : MultiprocessEngine} (st : EngineStep s s') (N : Nat)
    (h1 : s.queue.length + s.checkedOut.length ≤ N)
    (h2 : s.closed = false → s.queue.length + s.checkedOut.length = N) :
    s'.queue.length + s'.checkedOut.length ≤ N ∧
      (s'.closed = false → s'.queue.length + s'.checkedOut.length = N) := by
  cases st with
  | acquire =>
    simp only [List.length_cons, List.length_append, List.length_singleton,
      List.length_nil] at h1 h2 ⊢
    exact ⟨by omega, fun hc => by have := h2 hc; omega⟩
  | release w hmem =>
    have hpos : 0 < s.checkedOut.length := List.length_pos.mpr (List.ne_nil_of_mem hmem)
    have herase : (s.checkedOut.erase w).length = s.checkedOut.length - 1 :=
      List.length_erase_of_mem hmem
    cases hc : s.closed with
    | true =>
      refine ⟨?_, fun hfalse => ?_⟩
      · simp only [releaseWorker, hc, if_pos, ite_true, herase]
        omega
      · simp [releaseWorker, hc] at hfalse
    | false =>
      have heq := h2 hc
      refine ⟨?_, fun _ => ?_⟩ <;>
        · simp only [releaseWorker, hc, Bool.false_eq_true, ite_false,
            List.length_append, List.length_singleton, herase]
          omega
  | close =>
    exact ⟨h1, fun hfalse => by simp [closeEngine] at hfalse⟩

/-- Pool bookkeeping invariant along every reachable trace. -/
theorem circulation_invariant (ws : List Nat) (s : MultiprocessEngine)
    (h : Reachable (init ws) s) :
    s.queue.length + s.checkedOut.length ≤ ws.length ∧
      (s.closed = false → s.queue.length + s.checkedOut.length = ws.length) := by
  induction h with
  | refl => simp [init]
  | step hr st ih => exact circulation_step st ws.length ih.1 ih.2

end MultiprocessEngine

namespace QueuedEngine

theorem drainOutputs_map_some_sentinel (l : List Str) (rest : List (Option Str)) :
    drainOutputs (l.map some ++ none :: rest) = l := by
  induction l with
  | nil => rfl
  | cons t ts ih => simp [drainOutputs, ih]

end QueuedEngine

namespace VLLMClient

theorem trim_answer_echo (prompt answer : Str) : trim_answer prompt answer true = answer := rfl

/-- On a body of well-formed frames, the streaming loop yields exactly the trimmed
answers that do not end in a partially completed stop string, in frame order, and no
error is raised. -/
theorem request_wellFormed (prompt : Str) (echo : Bool) (stops : List Str)
    (frames : List Str) :
    request prompt echo stops (wellFormedLines frames) =
      ((frames.map fun t => trim_answer prompt t echo).filter
        fun a => !partial_stop a stops, none) := by
  induction frames with
  | nil => rfl
  | cons f fs ih =>
    simp only [wellFormedLines, List.map_cons] at ih ⊢
    by_cases h : partial_stop (trim_answer prompt f echo) stops <;>
      simp [request, List.filter_cons, h, ih]

/-- The withholding test holds exactly when the answer's trailing content matches a
non-empty proper prefix of some configured stop sequence. -/
theorem partial_stop_iff (answer : Str) (stops : List Str) :
    partial_stop answer stops = true ↔
      ∃ s ∈ stops, ∃ k, 0 < k ∧ k < s.length ∧ s.take k <:+ answer := by
  simp only [partial_stop, List.any_eq_true, List.mem_range, decide_eq_true_eq,
    Bool.and_eq_true]
  constructor
  · rintro ⟨s, hs, k, hk, h0, hsuf⟩
    exact ⟨s, hs, k, h0, hk, hsuf⟩
  · rintro ⟨s, hs, k, h0, hk, hsuf⟩
    exact ⟨s, hs, k, hk, h0, hsuf⟩

end VLLMClient

/-! ## Claim theorems -/

/-- C1: every `generate_stream` call that acquires a worker handle from the availability
pool releases it exactly once, on every exit path of the caller's consumption (normal
completion, breaking early, or an exception raised mid-stream): the `finally:` block runs
exactly once and puts the handle back into the queue unless the dispatcher has been shut
down, in which case the handle is discarded instead; the release never happens inside the
`try:` body, is never skipped, and never happens twice. -/
theorem C1_handle_released_exactly_once (texts : List Str)
    (e : MultiprocessEngine.ExitPath) (closedAtExit : Bool) :
    ((MultiprocessEngine.generate_stream_effects texts e closedAtExit).count
        MultiprocessEngine.Eff.putBack = if closedAtExit then 0 else 1) ∧
    ((MultiprocessEngine.tryBodyEffects texts e).count MultiprocessEngine.Eff.putBack
        = 0) ∧
    (closedAtExit = false →
      (MultiprocessEngine.generate_stream_effects texts e closedAtExit).getLast? =
        some MultiprocessEngine.Eff.putBack) := by
  have hbody : (MultiprocessEngine.tryBodyEffects texts e).count
      MultiprocessEngine.Eff.putBack = 0 := by
    cases e <;>
      simp [MultiprocessEngine.tryBodyEffects, List.count_cons, List.count_append,
        MultiprocessEngine.count_putBack_map_yielded,
        MultiprocessEngine.count_putBack_take_map]
  refine ⟨?_, hbody, fun hc => ?_⟩
  · cases closedAtExit <;>
      simp [MultiprocessEngine.generate_stream_effects, List.count_append,
        List.count_cons, hbody]
  · subst hc
    simp [MultiprocessEngine.generate_stream_effects, List.getLast?_concat]

theorem C1_witness :
    ((MultiprocessEngine.generate_stream_effects ["hi".toList]
        (MultiprocessEngine.ExitPath.brokeEarly 1) false).count
      MultiprocessEngine.Eff.putBack = if false then 0 else 1) ∧
    (MultiprocessEngine.generate_stream_effects ["hi".toList]
        (MultiprocessEngine.ExitPath.brokeEarly 1) false).getLast? =
      some MultiprocessEngine.Eff.putBack :=
  ⟨(C1_handle_released_exactly_once ["hi".toList]
      (MultiprocessEngine.ExitPath.brokeEarly 1) false).1,
   (C1_handle_released_exactly_once ["hi".toList]
      (MultiprocessEngine.ExitPath.brokeEarly 1) false).2.2 rfl⟩

/-- C3: per request, the worker sends every increment of the underlying stream in
generation order followed by exactly one end-of-stream sentinel; the dispatcher's read
loop yields exactly the non-sentinel increments in that order, terminates at the
sentinel without yielding it, and the sentinel is the last value observed — for both the
process-pool worker/pipe and the thread-pool watcher/output-queue. -/
theorem C3_sentinel_terminated_stream (texts : List Str) :
    MultiprocessEngine.drainStream (MultiprocessEngine.workerResponses texts) = texts ∧
    (MultiprocessEngine.workerResponses texts).count none = 1 ∧
    (MultiprocessEngine.workerResponses texts).getLast? = some none ∧
    MultiprocessEngine.observedValues (MultiprocessEngine.workerResponses texts) =
      texts.map some ++ [none] ∧
    (MultiprocessEngine.observedValues
        (MultiprocessEngine.workerResponses texts)).getLast? = some none ∧
    QueuedEngine.drainOutputs (QueuedEngine.watcherOutputs texts) = texts ∧
    (QueuedEngine.watcherOutputs texts).count none = 1 := by
  have hwr : MultiprocessEngine.workerResponses texts = texts.map some ++ none :: [] := rfl
  have hobs := MultiprocessEngine.observedValues_map_some_sentinel texts
    ([] : List (Option Str))
  refine ⟨?_, ?_, ?_, ?_, ?_, ?_, ?_⟩
  · rw [hwr]; exact MultiprocessEngine.drainStream_map_some_sentinel texts []
  · simp [MultiprocessEngine.workerResponses, List.count_append, List.count_cons,
      MultiprocessEngine.count_none_map_some]
  · simp [MultiprocessEngine.workerResponses, List.getLast?_concat]
  · rw [hwr]; exact hobs
  · rw [hwr, hobs]; simp [List.getLast?_concat]
  · exact QueuedEngine.drainOutputs_map_some_sentinel texts []
  · simp [QueuedEngine.watcherOutputs, List.count_append, List.count_cons,
      MultiprocessEngine.count_none_map_some]

/-- C6: for every received frame with cumulative text `T`, prompt `P`, and echo flag:
with echo off, if `T` starts with `P` the visible answer is `T` with the leading `P`
removed, and otherwise `T` unchanged; with echo on, the visible answer is `T`. In
particular, for prompt `"Q: "` and frame `"Q: answer"`, echo off yields `"answer"` and
echo on yields `"Q: answer"`. -/
theorem C6_echo_trimming (P T : Str) :
    ((P <+: T) → P ++ VLLMClient.trim_answer P T false = T) ∧
    (¬(P <+: T) → VLLMClient.trim_answer P T false = T) ∧
    VLLMClient.trim_answer P T true = T ∧
    VLLMClient.trim_answer "Q: ".toList "Q: answer".toList false = "answer".toList ∧
    VLLMClient.trim_answer "Q: ".toList "Q: answer".toList true = "Q: answer".toList := by
  refine ⟨fun h => ?_, fun h => ?_, rfl, by decide, by decide⟩
  · obtain ⟨t, rfl⟩ := h
    simp [VLLMClient.trim_answer, List.prefix_append, List.drop_left]
  · simp [VLLMClient.trim_answer, h]

theorem C6_witness :
    "Q: ".toList ++ VLLMClient.trim_answer "Q: ".toList "Q: answer".toList false =
      "Q: answer".toList :=
  (C6_echo_trimming "Q: ".toList "Q: answer".toList).1 (by decide)

/-- C7: the non-streaming convenience operation `generate` drains the yielded increments
of the corresponding request and keeps only the last one (the empty string if nothing is
yielded); concretely, it returns the final frame's visible answer. -/
theorem C7_generate_keeps_last_increment (prompt : Str) (echo : Bool)
    (responseText : Str) :
    (∀ ys : List Str, VLLMClient.generate_drain ys = ys.getLastD []) ∧
    VLLMClient.generate prompt echo responseText =
      VLLMClient.trim_answer prompt responseText echo ∧
    VLLMClient.generate_drain [] = [] := by
  have hfold : ∀ (ys : List Str) (i : Str), ys.foldl (fun _ t => t) i = ys.getLastD i := by
    intro ys
    induction ys with
    | nil => intro i; rfl
    | cons a l ih => intro i; simp only [List.foldl_cons]; rw [ih, List.getLastD_cons]
  exact ⟨fun ys => hfold ys [], rfl, rfl⟩

/-- C9: when a caller abandons `generate_stream` after `k` of the abandoned request's
increments, the worker handle goes back to the pool (the engine not being closed) while
the remaining increments and the sentinel stay unread in the pipe; the next request
dispatched to that worker therefore observes exactly the abandoned request's leftover
increments — terminated by the abandoned request's sentinel — and none of its own
output, breaking per-request increment isolation. -/
theorem C9_abandonment_leaks_leftovers (texts1 texts2 : List Str) (k : Nat) :
    MultiprocessEngine.drainStream (((texts1.drop k).map some ++ [none]) ++
        MultiprocessEngine.workerResponses texts2) = texts1.drop k ∧
    ((MultiprocessEngine.generate_stream_effects texts1
        (MultiprocessEngine.ExitPath.brokeEarly k) false).count
      MultiprocessEngine.Eff.putBack = 1) ∧
    MultiprocessEngine.drainStream (([some "b".toList, none] : List (Option Str)) ++
        MultiprocessEngine.workerResponses ["c".toList]) = ["b".toList] ∧
    ("b".toList : Str) ≠ "c".toList := by
  refine ⟨?_, ?_, by decide, by decide⟩
  · have h := MultiprocessEngine.drainStream_map_some_sentinel (texts1.drop k)
      (MultiprocessEngine.workerResponses texts2)
    simpa [List.append_assoc] using h
  · simp [MultiprocessEngine.generate_stream_effects, MultiprocessEngine.tryBodyEffects,
      List.count_append, List.count_cons,
      MultiprocessEngine.count_putBack_take_map,
      MultiprocessEngine.count_putBack_map_yielded]

/-- C10: constructing a `VLLMClient` with the default `headers=None` raises `TypeError`,
because the session's header mapping is unconditionally updated with the `headers`
value; construction succeeds exactly when a non-None headers mapping is supplied. -/
theorem C10_default_headers_raises (url : Str) (hs : List (Str × Str)) :
    VLLMClient.init url none = Except.error PyError.typeError ∧
    VLLMClient.init url (some hs) =
      Except.ok ⟨VLLMClient.sessionDefaultHeaders ++ hs, url⟩ :=
  ⟨rfl, rfl⟩

/-- C2: a `MultiprocessEngine` constructed over `N` worker handles seeds the
availability pool with exactly those `N` handles; along every reachable trace at most
`N` requests are simultaneously assigned to workers, the number of handles in
circulation (in the pool plus checked out) is exactly `N` until shutdown, an `(N+1)`-th
concurrent call finds the pool empty and blocks in the acquire step, and the release
performed by a completing in-flight request re-enables acquisition. -/
theorem C2_pool_capacity_invariant (ws : List Nat) (s : MultiprocessEngine)
    (h : MultiprocessEngine.Reachable (MultiprocessEngine.init ws) s) :
    MultiprocessEngine.init ws = ⟨ws, [], false⟩ ∧
    (s.closed = false → s.queue.length + s.checkedOut.length = ws.length) ∧
    s.checkedOut.length ≤ ws.length ∧
    (s.closed = false → s.checkedOut.length = ws.length →
      MultiprocessEngine.acquireWorker s = none) ∧
    (∀ w, w ∈ s.checkedOut → s.closed = false →
      MultiprocessEngine.acquireWorker (MultiprocessEngine.releaseWorker s w) ≠ none) := by
  obtain ⟨hle, heq⟩ := MultiprocessEngine.circulation_invariant ws s h
  refine ⟨rfl, heq, by omega, fun hc hfull => ?_, fun w hw hc => ?_⟩
  · have hcirc := heq hc
    rw [MultiprocessEngine.acquireWorker_eq_none_iff]
    exact List.length_eq_zero.mp (by omega)
  · intro hnone
    rw [MultiprocessEngine.acquireWorker_eq_none_iff] at hnone
    simp [MultiprocessEngine.releaseWorker, hc] at hnone

theorem C2_witness :
    (MultiprocessEngine.init [0] = ⟨[0], [], false⟩) ∧
    MultiprocessEngine.acquireWorker
        (MultiprocessEngine.releaseWorker ⟨[], [0], false⟩ 0) ≠ none := by
  have h1 : MultiprocessEngine.Reachable (MultiprocessEngine.init [0]) ⟨[], [0], false⟩ :=
    MultiprocessEngine.Reachable.step MultiprocessEngine.Reachable.refl
      MultiprocessEngine.EngineStep.acquire
  exact ⟨(C2_pool_capacity_invariant [0] ⟨[], [0], false⟩ h1).1,
    (C2_pool_capacity_invariant [0] ⟨[], [0], false⟩ h1).2.2.2.2 0 (by decide) rfl⟩

/-- C5 (amended): after `close()`, a subsequent `generate_stream` call performs no
closed-flag check up front: when the availability queue still holds a handle the call
fails deterministically and fast — sending the request on the closed channel raises at
once — but when the queue is empty (handles checked out at shutdown are discarded, never
returned) the call blocks indefinitely in `self.queue.get()`. -/
theorem C5_after_close_behavior (ws : List Nat) (s : MultiprocessEngine)
    (h : MultiprocessEngine.Reachable (MultiprocessEngine.init ws) s)
    (hc : s.closed = true) :
    (s.queue = [] → MultiprocessEngine.generate_stream_call s =
      MultiprocessEngine.CallOutcome.blocksOnAcquire) ∧
    (s.queue ≠ [] → MultiprocessEngine.generate_stream_call s =
      MultiprocessEngine.CallOutcome.raisesOnClosedChannel) := by
  obtain ⟨q, o, c⟩ := s
  cases c with
  | false => simp at hc
  | true =>
    refine ⟨fun hq => ?_, fun hq => ?_⟩
    · cases hq; rfl
    · cases q with
      | nil => exact absurd rfl hq
      | cons w rest => rfl

theorem C5_witness :
    MultiprocessEngine.generate_stream_call ⟨[0], [], true⟩ =
      MultiprocessEngine.CallOutcome.raisesOnClosedChannel :=
  (C5_after_close_behavior [0] ⟨[0], [], true⟩
    (MultiprocessEngine.Reachable.step MultiprocessEngine.Reachable.refl
      MultiprocessEngine.EngineStep.close) rfl).2 (by decide)

/-- C5 (counterexample): the claim "after close, any subsequent generate_stream call
fails deterministically and fast rather than blocking" is false on the code: a state is
reachable — close the capacity-one engine while its only worker is checked out, then let
the in-flight release discard the handle — in which the engine is closed, a subsequent
`generate_stream` call blocks forever in the acquire step (it does not raise), and every
further engine transition leaves such a call blocked. -/
theorem C5_counterexample :
    MultiprocessEngine.Reachable (MultiprocessEngine.init [0])
      ⟨[], [], true⟩ ∧
    (MultiprocessEngine.generate_stream_call ⟨[], [], true⟩ =
      MultiprocessEngine.CallOutcome.blocksOnAcquire) ∧
    (MultiprocessEngine.generate_stream_call ⟨[], [], true⟩ ≠
      MultiprocessEngine.CallOutcome.raisesOnClosedChannel) ∧
    (∀ s', MultiprocessEngine.EngineStep ⟨[], [], true⟩ s' →
      MultiprocessEngine.generate_stream_call s' =
        MultiprocessEngine.CallOutcome.blocksOnAcquire) := by
  refine ⟨?_, rfl, by decide, fun s' hstep => ?_⟩
  · have h1 : MultiprocessEngine.EngineStep (MultiprocessEngine.init [0])
        ⟨[], [0], false⟩ :=
      MultiprocessEngine.EngineStep.acquire
    have h2 : MultiprocessEngine.EngineStep ⟨[], [0], false⟩ ⟨[], [0], true⟩ :=
      MultiprocessEngine.EngineStep.close
    have h3 : MultiprocessEngine.EngineStep ⟨[], [0], true⟩ ⟨[], [], true⟩ :=
      MultiprocessEngine.EngineStep.release 0 (by decide)
    exact MultiprocessEngine.Reachable.step (MultiprocessEngine.Reachable.step
      (MultiprocessEngine.Reachable.step MultiprocessEngine.Reachable.refl h1) h2) h3
  · cases hstep with
    | release w hmem => simp at hmem
    | close => rfl

theorem VLLMClient.visibleAnswers_echo (prompt : Str) (frames : List Str) :
    VLLMClient.visibleAnswers prompt true frames = frames := by
  simp [VLLMClient.visibleAnswers, VLLMClient.trim_answer_echo]

/-- C4: over well-formed frames, a frame's visible answer is withheld exactly when its
trailing content matches a non-empty proper prefix of some configured stop sequence (the
emitted stream is the non-matching visible answers, in frame order); against the
spec-modelled stop-truncating endpoint no emitted increment ever contains a completed
stop sequence, so once a full stop matches nothing further is emitted; and when the
visible answers are cumulative, every withheld answer is a prefix of — hence included
in — any later emitted answer, and a later answer at which the partial match is
disproven is emitted. -/
theorem C4_stop_sequence_suppression (prompt : Str) (echo : Bool) (stops : List Str)
    (frames : List Str) (gen : Str)
    (hcum : (VLLMClient.visibleAnswers prompt echo frames).Pairwise (· <+: ·)) :
    (VLLMClient.request prompt echo stops (VLLMClient.wellFormedLines frames) =
      ((VLLMClient.visibleAnswers prompt echo frames).filter
        (fun a => !VLLMClient.partial_stop a stops), none)) ∧
    (∀ a, VLLMClient.partial_stop a stops = true ↔
      ∃ s ∈ stops, ∃ k, 0 < k ∧ k < s.length ∧ s.take k <:+ a) ∧
    (∀ a ∈ (VLLMClient.request prompt true stops
        (VLLMClient.wellFormedLines (VLLMClient.serverFrames stops gen))).1,
      VLLMClient.hasFullStop stops a = false) ∧
    (∀ i j : Fin (VLLMClient.visibleAnswers prompt echo frames).length,
      i < j →
      VLLMClient.partial_stop ((VLLMClient.visibleAnswers prompt echo frames).get i)
          stops = true →
      VLLMClient.partial_stop ((VLLMClient.visibleAnswers prompt echo frames).get j)
          stops = false →
      ((VLLMClient.visibleAnswers prompt echo frames).get i <+:
        (VLLMClient.visibleAnswers prompt echo frames).get j) ∧
      (VLLMClient.visibleAnswers prompt echo frames).get j ∈
        (VLLMClient.request prompt echo stops (VLLMClient.wellFormedLines frames)).1) := by
  have hreq : ∀ e : Bool, VLLMClient.request prompt e stops
      (VLLMClient.wellFormedLines frames) =
      ((VLLMClient.visibleAnswers prompt e frames).filter
        (fun a => !VLLMClient.partial_stop a stops), none) := fun e =>
    VLLMClient.request_wellFormed prompt e stops frames
  refine ⟨hreq echo, fun a => VLLMClient.partial_stop_iff a stops, fun a ha => ?_,
    fun i j hij h1 h2 => ?_⟩
  · rw [VLLMClient.request_wellFormed] at ha
    simp only [VLLMClient.trim_answer_echo, List.map_id'] at ha
    have hmem : a ∈ VLLMClient.serverFrames stops gen := (List.mem_filter.mp ha).1
    rw [VLLMClient.serverFrames] at hmem
    have hall := List.mem_takeWhile_imp hmem
    simpa using hall
  · have hpw := List.pairwise_iff_get.mp hcum i j hij
    refine ⟨hpw, ?_⟩
    rw [hreq echo]
    exact List.mem_filter.mpr ⟨List.get_mem _ _ j.2, by simpa using h2⟩

theorem C4_witness :
    (VLLMClient.request [] false ["END".toList]
        (VLLMClient.wellFormedLines
          ["w".toList, "wE".toList, "wEN".toList, "wEN c".toList]) =
      ((VLLMClient.visibleAnswers [] false
          ["w".toList, "wE".toList, "wEN".toList, "wEN c".toList]).filter
        (fun a => !VLLMClient.partial_stop a ["END".toList]), none)) ∧
    ("wEN".toList : Str) <+: "wEN c".toList := by
  have h := C4_stop_sequence_suppression [] false ["END".toList]
    ["w".toList, "wE".toList, "wEN".toList, "wEN c".toList]
    "hello wEND orld".toList (by decide)
  have h4 := h.2.2.2 ⟨2, by decide⟩ ⟨3, by decide⟩ (by decide) (by decide) (by decide)
  exact ⟨h.1, h4.1⟩

/-- C8: in the streaming loop, a non-empty frame whose parsed JSON lacks the expected
"text" field raises `KeyError`, aborting that request's stream: the yields are exactly
the visible answers of the well-formed frames before it, nothing at or after the
malformed frame is yielded, and the error is reported rather than the frame being
silently skipped; empty lines, by contrast, are skipped. -/
theorem C8_malformed_frame_aborts (prompt : Str) (echo : Bool) (stops : List Str)
    (pre : List Str) (post : List VLLMClient.RawLine) :
    (VLLMClient.request prompt echo stops
        (VLLMClient.wellFormedLines pre ++ VLLMClient.RawLine.frame none :: post) =
      ((VLLMClient.visibleAnswers prompt echo pre).filter
        (fun a => !VLLMClient.partial_stop a stops), some PyError.keyError)) ∧
    (∀ rest : List VLLMClient.RawLine,
      VLLMClient.request prompt echo stops (VLLMClient.RawLine.empty :: rest) =
        VLLMClient.request prompt echo stops rest) := by
  refine ⟨?_, fun rest => rfl⟩
  induction pre with
  | nil => rfl
  | cons f fs ih =>
    simp only [VLLMClient.wellFormedLines, VLLMClient.visibleAnswers, List.map_cons,
      List.cons_append] at ih ⊢
    by_cases h : VLLMClient.partial_stop (VLLMClient.trim_answer prompt f echo) stops <;>
      simp [VLLMClient.request, List.filter_cons, h, ih]
